import Mathlib

/-!
Shallow embedding of the derived-statistics logic of the progress-pals
weight-tracking application (files `src/app/dashboard-client.tsx` and
`src/app/register/page.tsx`), together with proofs of the specified
properties.

Conventions of the embedding:
* JavaScript `number` arithmetic on weights, heights and BMI values is
  modelled with exact rationals (`ℚ`); the claims are about the exact
  formulas, not floating-point rounding.
* Timestamps are modelled as rational numbers measured in days
  (`created_at`), so "now − 7 days" is `now - 7`.
* Calendar dates handed to `differenceInDays` are modelled as integer day
  indices; `differenceInDays d n = d - n`.
* JavaScript `null` / absent fields are modelled with `Option`.
* `Infinity` appearing as a neutral element of `Math.min` is modelled by
  omitting the candidate (an `Option ℚ` that contributes nothing when
  `none`).
-/

/-- A recorded weight measurement: weight in kilograms and creation
timestamp in days. -/
structure Measurement where
  weight_kg : ℚ
  created_at : ℚ
deriving Repr, DecidableEq

/-- A user profile: optional height in centimeters and optional long-term
target weight in kilograms. -/
structure Profile where
  height_cm : Option ℚ
  target_weight_kg : Option ℚ
deriving Repr, DecidableEq

/-- Persisted status of a goal. -/
inductive GoalStatus where
  | active
  | achieved
deriving Repr, DecidableEq

/-- A short-term goal: target weight in kilograms, deadline as an integer
day index, and persisted status. -/
structure Goal where
  target_weight_kg : ℚ
  deadline : ℤ
  status : GoalStatus
deriving Repr, DecidableEq

/-- Source: `calculateBMI` from both dashboard files:
`const heightM = heightCm / 100; return weightKg / (heightM * heightM)`. -/
def calculateBMI (weightKg heightCm : ℚ) : ℚ :=
  let heightM := heightCm / 100
  weightKg / (heightM * heightM)

/-- Source: `getBMICategory` from both dashboard files. -/
def getBMICategory (bmi : ℚ) : String :=
  if bmi < 18.5 then "Underweight"
  else if bmi < 25 then "Healthy"
  else if bmi < 30 then "Overweight"
  else "Obese"

/-- The three zone-boundary weights returned by `getBMIZoneBoundaries`. -/
structure BMIZones where
  underweight : ℚ
  healthy : ℚ
  overweight : ℚ
deriving Repr, DecidableEq

/-- Source: `getBMIZoneBoundaries` from both dashboard files: weight (kg) at each
BMI threshold for a given height. -/
def getBMIZoneBoundaries (heightCm : ℚ) : BMIZones :=
  let heightM := heightCm / 100
  let h2 := heightM * heightM
  { underweight := 18.5 * h2, healthy := 25 * h2, overweight := 30 * h2 }

/-- Source: `measurements[0]?.weight_kg ?? null`. -/
def latestWeight (measurements : List Measurement) : Option ℚ :=
  measurements.head?.map (fun m => m.weight_kg)

/-- Source: `profile.height_cm ?? 170`. -/
def heightCm (profile : Profile) : ℚ :=
  profile.height_cm.getD 170

/-- Source: `latestWeight ? calculateBMI(latestWeight, heightCm) : null`
(JavaScript truthiness: a latest weight of `0` also yields `null`). -/
def currentBMI (profile : Profile) (measurements : List Measurement) :
    Option ℚ :=
  match latestWeight measurements with
  | none => none
  | some w => if w = 0 then none else some (calculateBMI w (heightCm profile))

/-- Source: `measurements.filter((m) => new Date(m.created_at) >= subDays(now, 7))`. -/
def measurementsLast7Days (now : ℚ) (measurements : List Measurement) :
    List Measurement :=
  measurements.filter (fun m => now - 7 ≤ m.created_at)

/-- Source: `trend`: change from oldest to newest within the 7-day window, `null`
when the window holds fewer than 2 measurements.  The source reads
`measurementsLast7Days[0]?.weight_kg ?? 0` and the same for the last
element; the `?? 0` fallbacks are modelled by `getD 0`. -/
def trend (now : ℚ) (measurements : List Measurement) : Option ℚ :=
  let window := measurementsLast7Days now measurements
  if 2 ≤ window.length then
    some ((window.head?.map (fun m => m.weight_kg)).getD 0 -
          (window.getLast?.map (fun m => m.weight_kg)).getD 0)
  else none

/-- Source: `rollingAvg`: mean of all measurements in the last 7 days, `null`
when the window is empty. -/
def rollingAvg (now : ℚ) (measurements : List Measurement) : Option ℚ :=
  let window := measurementsLast7Days now measurements
  if 0 < window.length then
    some ((window.map (fun m => m.weight_kg)).sum / window.length)
  else none

/-! Claim C1: BMI formula and category thresholds -/

/-- C1. For every weight `w > 0` (kg) and height `h > 0` (cm), the
computed BMI equals `w / (h/100)^2`, and `getBMICategory` maps
`bmi < 18.5` to Underweight, `18.5 ≤ bmi < 25` to Healthy,
`25 ≤ bmi < 30` to Overweight and `bmi ≥ 30` to Obese; at the exact
boundaries, `18.5` yields Healthy, `25` yields Overweight and `30`
yields Obese. -/
theorem bmi_formula_and_category (w h : ℚ) (hw : 0 < w) (hh : 0 < h)
    (bmi : ℚ) :
    calculateBMI w h = w / (h / 100) ^ 2 ∧
    (bmi < 18.5 → getBMICategory bmi = "Underweight") ∧
    (18.5 ≤ bmi → bmi < 25 → getBMICategory bmi = "Healthy") ∧
    (25 ≤ bmi → bmi < 30 → getBMICategory bmi = "Overweight") ∧
    (30 ≤ bmi → getBMICategory bmi = "Obese") ∧
    getBMICategory 18.5 = "Healthy" ∧
    getBMICategory 25 = "Overweight" ∧
    getBMICategory 30 = "Obese" := by
  refine ⟨?_, ?_, ?_, ?_, ?_,
    by unfold getBMICategory; norm_num,
    by unfold getBMICategory; norm_num,
    by unfold getBMICategory; norm_num⟩
  · unfold calculateBMI
    ring
  · intro hlt
    unfold getBMICategory
    rw [if_pos hlt]
  · intro hge hlt
    unfold getBMICategory
    rw [if_neg (not_lt.mpr hge), if_pos hlt]
  · intro hge hlt
    unfold getBMICategory
    rw [if_neg (by linarith : ¬ bmi < 18.5), if_neg (not_lt.mpr hge),
      if_pos hlt]
  · intro hge
    unfold getBMICategory
    rw [if_neg (by linarith : ¬ bmi < 18.5),
      if_neg (by linarith : ¬ bmi < 25), if_neg (not_lt.mpr hge)]

/-- Witness for C1 at `w = 70`, `h = 170`, `bmi = 24`. -/
theorem bmi_formula_and_category_witness :
    (0 : ℚ) < 70 ∧ (0 : ℚ) < 170 ∧
    (calculateBMI 70 170 = 70 / (170 / 100) ^ 2 ∧
    ((24 : ℚ) < 18.5 → getBMICategory 24 = "Underweight") ∧
    ((18.5 : ℚ) ≤ 24 → (24 : ℚ) < 25 → getBMICategory 24 = "Healthy") ∧
    ((25 : ℚ) ≤ 24 → (24 : ℚ) < 30 → getBMICategory 24 = "Overweight") ∧
    ((30 : ℚ) ≤ 24 → getBMICategory 24 = "Obese") ∧
    getBMICategory 18.5 = "Healthy" ∧
    getBMICategory 25 = "Overweight" ∧
    getBMICategory 30 = "Obese") :=
  ⟨by norm_num, by norm_num,
    bmi_formula_and_category 70 170 (by norm_num) (by norm_num) 24⟩

/-! Claim C9: zone boundary round-trip -/

/-- C9. For every height `h > 0` and each BMI threshold
`t ∈ {18.5, 25, 30}`, the zone-boundary weight `t * (h/100)^2` passed back
through `calculateBMI` at the same height reproduces exactly `t`. -/
theorem bmi_zone_roundtrip (h : ℚ) (hh : 0 < h) :
    calculateBMI (getBMIZoneBoundaries h).underweight h = 18.5 ∧
    calculateBMI (getBMIZoneBoundaries h).healthy h = 25 ∧
    calculateBMI (getBMIZoneBoundaries h).overweight h = 30 := by
  have hne : h ≠ 0 := ne_of_gt hh
  refine ⟨?_, ?_, ?_⟩ <;>
    · unfold calculateBMI getBMIZoneBoundaries
      field_simp

/-- Witness for C9 at `h = 170`. -/
theorem bmi_zone_roundtrip_witness :
    (0 : ℚ) < 170 ∧
    (calculateBMI (getBMIZoneBoundaries 170).underweight 170 = 18.5 ∧
     calculateBMI (getBMIZoneBoundaries 170).healthy 170 = 25 ∧
     calculateBMI (getBMIZoneBoundaries 170).overweight 170 = 30) :=
  ⟨by norm_num, bmi_zone_roundtrip 170 (by norm_num)⟩

/-! Claim C10: default height of 170 cm when the profile height is
absent -/

/-- C10. For every profile whose `height_cm` field is absent, the
aggregator substitutes a default height of 170 cm: current BMI, the BMI
category derived from it, and the BMI zone boundaries are computed as if
the height were 170 cm rather than being reported absent. -/
theorem default_height_170 (profile : Profile) (ms : List Measurement)
    (habs : profile.height_cm = none) :
    heightCm profile = 170 ∧
    (∀ w, latestWeight ms = some w → w ≠ 0 →
      currentBMI profile ms = some (calculateBMI w 170) ∧
      (currentBMI profile ms).map getBMICategory =
        some (getBMICategory (calculateBMI w 170))) ∧
    getBMIZoneBoundaries (heightCm profile) = getBMIZoneBoundaries 170 := by
  have h170 : heightCm profile = 170 := by
    unfold heightCm
    rw [habs]
    rfl
  refine ⟨h170, ?_, by rw [h170]⟩
  intro w hw hw0
  have hbmi : currentBMI profile ms = some (calculateBMI w 170) := by
    unfold currentBMI
    rw [hw, h170]
    simp [hw0]
  exact ⟨hbmi, by rw [hbmi]; rfl⟩

/-- Witness for C10: a profile with no height and a single measurement of
70 kg yields BMI computed at 170 cm. -/
theorem default_height_170_witness :
    (Profile.mk none none).height_cm = none ∧
    heightCm (Profile.mk none none) = 170 ∧
    currentBMI (Profile.mk none none) [Measurement.mk 70 0] =
      some (calculateBMI 70 170) := by
  have h := default_height_170 (Profile.mk none none) [Measurement.mk 70 0]
    rfl
  exact ⟨rfl, h.1, (h.2.1 70 rfl (by norm_num)).1⟩

/-! Goal pace evaluator (register page, lines 829–845) -/

/-- Source: `differenceInDays` from date-fns, modelled on integer day indices. -/
def differenceInDays (later earlier : ℤ) : ℤ :=
  later - earlier

/-- Source: `Math.max(0, differenceInDays(deadlineDate, now))`. -/
def daysRemaining (now : ℤ) (goal : Goal) : ℤ :=
  max 0 (differenceInDays goal.deadline now)

/-- Source: `Math.max(daysRemaining / 7, 0.01)`. -/
def weeksRemaining (days : ℤ) : ℚ :=
  max ((days : ℚ) / 7) 0.01

/-- Source: `latestWeight != null ? latestWeight - goal.target_weight_kg :
goal.target_weight_kg`. -/
def kgToLose (latestW : Option ℚ) (goal : Goal) : ℚ :=
  match latestW with
  | some w => w - goal.target_weight_kg
  | none => goal.target_weight_kg

/-- Source: `kgToLose / weeksRemaining`. -/
def kgPerWeek (now : ℤ) (goal : Goal) (latestW : Option ℚ) : ℚ :=
  kgToLose latestW goal / weeksRemaining (daysRemaining now goal)

/-- Source: `kgPerWeek > 1`. -/
def isAmbitious (now : ℤ) (goal : Goal) (latestW : Option ℚ) : Bool :=
  decide (1 < kgPerWeek now goal latestW)

/-- Source: `goal.status === "achieved" || (latestWeight != null && latestWeight <=
goal.target_weight_kg)`. -/
def isAchieved (goal : Goal) (latestW : Option ℚ) : Bool :=
  decide (goal.status = GoalStatus.achieved) ||
    match latestW with
    | some w => decide (w ≤ goal.target_weight_kg)
    | none => false

/-- Source: `{isAchieved ? 0 : daysRemaining}` — the days-remaining figure shown in
the goal card. -/
def displayedDaysRemaining (now : ℤ) (goal : Goal) (latestW : Option ℚ) :
    ℤ :=
  if isAchieved goal latestW then 0 else daysRemaining now goal

/-- Source: `!isAchieved && latestWeight != null` — the guard around the
"Realism: … kg/week" pace display. -/
def paceShown (goal : Goal) (latestW : Option ℚ) : Bool :=
  !(isAchieved goal latestW) && latestW.isSome

/-! Claim C2: goal pace computation -/

/-- C2. For every current day `now`, every not-achieved goal with
deadline `D` and target `T`, and every (possibly absent) latest weight `W`:
`daysRemaining = max(0, D - now)`; `weeksRemaining` is positive (never
zero); a deadline exactly today gives `daysRemaining = 0` and
`weeksRemaining = 0.01`; `kgToLose` is `W - T` when `W` is present and `T`
itself when absent; `kgPerWeek = kgToLose / weeksRemaining`; the goal is
flagged ambitious exactly when `kgPerWeek > 1`; and in the concrete case
`T = 70`, deadline 14 days out, `W = 80`, `kgPerWeek = 5` and the goal is
ambitious. -/
theorem goal_pace (now : ℤ) (goal : Goal) (W : Option ℚ)
    (hna : isAchieved goal W = false) :
    daysRemaining now goal = max 0 (goal.deadline - now) ∧
    0 < weeksRemaining (daysRemaining now goal) ∧
    (goal.deadline = now →
      daysRemaining now goal = 0 ∧
      weeksRemaining (daysRemaining now goal) = 0.01) ∧
    (∀ w, W = some w → kgToLose W goal = w - goal.target_weight_kg) ∧
    (W = none → kgToLose W goal = goal.target_weight_kg) ∧
    kgPerWeek now goal W =
      kgToLose W goal / weeksRemaining (daysRemaining now goal) ∧
    (isAmbitious now goal W = true ↔ 1 < kgPerWeek now goal W) ∧
    (goal.target_weight_kg = 70 → goal.deadline = now + 14 → W = some 80 →
      kgPerWeek now goal W = 5 ∧ isAmbitious now goal W = true) := by
  refine ⟨rfl, ?_, ?_, ?_, ?_, rfl, by simp [isAmbitious], ?_⟩
  · have h2 : (0.01 : ℚ) ≤ weeksRemaining (daysRemaining now goal) :=
      le_max_right _ _
    have : (0 : ℚ) < 0.01 := by norm_num
    linarith
  · intro hD
    have hd : daysRemaining now goal = 0 := by
      unfold daysRemaining differenceInDays
      rw [hD]
      simp
    refine ⟨hd, ?_⟩
    rw [hd]
    unfold weeksRemaining
    norm_num
  · intro w hw
    rw [hw]
    rfl
  · intro hw
    rw [hw]
    rfl
  · intro hT hD hW
    have hd : daysRemaining now goal = 14 := by
      unfold daysRemaining differenceInDays
      rw [hD]
      simp
    have hk : kgPerWeek now goal W = 5 := by
      unfold kgPerWeek kgToLose
      rw [hW, hT, hd]
      unfold weeksRemaining
      norm_num
    exact ⟨hk, by simp [isAmbitious, hk]⟩

/-- Witness for C2: an active goal of 70 kg due in 14 days with latest
weight 80 kg is not achieved, and its pace is 5 kg/week, ambitious. -/
theorem goal_pace_witness :
    isAchieved (Goal.mk 70 14 GoalStatus.active) (some 80) = false ∧
    kgPerWeek 0 (Goal.mk 70 14 GoalStatus.active) (some 80) = 5 ∧
    isAmbitious 0 (Goal.mk 70 14 GoalStatus.active) (some 80) = true := by
  have hna : isAchieved (Goal.mk 70 14 GoalStatus.active) (some 80) =
      false := by
    unfold isAchieved
    norm_num
    decide
  have h := goal_pace 0 (Goal.mk 70 14 GoalStatus.active) (some 80) hna
  exact ⟨hna, h.2.2.2.2.2.2.2 rfl rfl rfl⟩

/-! Claim C8: goal achievement determination and its display -/

/-- C8. For every goal and (possibly absent) latest weight `W`,
`isAchieved` holds iff the persisted status is achieved or `W` is present
and `W ≤ T`; and whenever it holds, the displayed days-remaining is 0 and
the pace is not shown. -/
theorem isAchieved_spec (goal : Goal) (W : Option ℚ) :
    (isAchieved goal W = true ↔
      goal.status = GoalStatus.achieved ∨
        ∃ w, W = some w ∧ w ≤ goal.target_weight_kg) ∧
    ∀ now : ℤ, isAchieved goal W = true →
      displayedDaysRemaining now goal W = 0 ∧ paceShown goal W = false := by
  constructor
  · unfold isAchieved
    cases W with
    | none => simp
    | some w => simp
  · intro now hach
    unfold displayedDaysRemaining paceShown
    rw [hach]
    simp

/-- Witness for C8: an active goal of 70 kg with latest weight 65 kg is
achieved (65 ≤ 70), so 0 days remaining are displayed and no pace is
shown. -/
theorem isAchieved_spec_witness :
    isAchieved (Goal.mk 70 14 GoalStatus.active) (some 65) = true ∧
    displayedDaysRemaining 0 (Goal.mk 70 14 GoalStatus.active) (some 65)
      = 0 ∧
    paceShown (Goal.mk 70 14 GoalStatus.active) (some 65) = false := by
  have h := isAchieved_spec (Goal.mk 70 14 GoalStatus.active) (some 65)
  have hach : isAchieved (Goal.mk 70 14 GoalStatus.active) (some 65) =
      true :=
    h.1.mpr (Or.inr ⟨65, rfl, by norm_num⟩)
  exact ⟨hach, h.2 0 hach⟩

/-! Claims C3 and C4: 7-day trend and rolling average -/

/-- In a list whose timestamps are pairwise non-increasing (newest-first),
the head has the maximal timestamp. -/
theorem head_newest_of_pairwise {l : List Measurement} {mh : Measurement}
    (hp : l.Pairwise (fun a b => b.created_at ≤ a.created_at))
    (hh : l.head? = some mh) :
    ∀ m ∈ l, m.created_at ≤ mh.created_at := by
  cases l with
  | nil => simp at hh
  | cons a t =>
    have ha : a = mh := by
      simpa using hh
    subst ha
    intro m hm
    rcases List.mem_cons.mp hm with h | h
    · rw [h]
    · exact (List.pairwise_cons.mp hp).1 m h

/-- In a list whose timestamps are pairwise non-increasing (newest-first),
the last element has the minimal timestamp. -/
theorem getLast_oldest_of_pairwise {l : List Measurement}
    {ml : Measurement}
    (hp : l.Pairwise (fun a b => b.created_at ≤ a.created_at))
    (hl : l.getLast? = some ml) :
    ∀ m ∈ l, ml.created_at ≤ m.created_at := by
  induction l with
  | nil => simp at hl
  | cons a t ih =>
    intro m hm
    rcases List.pairwise_cons.mp hp with ⟨ha, hpt⟩
    rcases List.mem_cons.mp hm with h | h
    · subst h
      cases t with
      | nil =>
        have hme : m = ml := by
          simpa [List.getLast?] using hl
        rw [hme]
      | cons b t' =>
        have hl' : (b :: t').getLast? = some ml := by
          simpa [List.getLast?_cons_cons] using hl
        have hmem : ml ∈ b :: t' := List.mem_of_mem_getLast? hl'
        exact ha ml hmem
    · cases t with
      | nil => simp at h
      | cons b t' =>
        have hl' : (b :: t').getLast? = some ml := by
          simpa [List.getLast?_cons_cons] using hl
        exact ih hpt hl' m h

/-- C3. For every measurement list ordered newest-first and every
current time, with the window being the measurements with timestamp
≥ now − 7 days: if the window holds fewer than 2 measurements the trend
is `none`; otherwise the trend is the weight of the most recent in-window
measurement minus the weight of the oldest in-window measurement; and for
the list `[{80 kg, day 0}, {82 kg, day −6}]` at `now = 0` the trend is
−2. -/
theorem trend_spec (now : ℚ) (ms : List Measurement)
    (hsorted : ms.Pairwise (fun a b => b.created_at ≤ a.created_at)) :
    ((measurementsLast7Days now ms).length < 2 → trend now ms = none) ∧
    (2 ≤ (measurementsLast7Days now ms).length →
      ∃ mNew mOld,
        (measurementsLast7Days now ms).head? = some mNew ∧
        (measurementsLast7Days now ms).getLast? = some mOld ∧
        trend now ms = some (mNew.weight_kg - mOld.weight_kg) ∧
        (∀ m ∈ measurementsLast7Days now ms,
          m.created_at ≤ mNew.created_at) ∧
        (∀ m ∈ measurementsLast7Days now ms,
          mOld.created_at ≤ m.created_at)) ∧
    trend 0 [Measurement.mk 80 0, Measurement.mk 82 (-6)] = some (-2) := by
  have hwp : (measurementsLast7Days now ms).Pairwise
      (fun a b => b.created_at ≤ a.created_at) :=
    hsorted.sublist (List.filter_sublist ms)
  refine ⟨?_, ?_, ?_⟩
  · intro hlt
    unfold trend
    rw [if_neg (by omega)]
  · intro h2
    have hne : measurementsLast7Days now ms ≠ [] := by
      intro hnil
      rw [hnil] at h2
      simp at h2
    obtain ⟨mNew, hNew⟩ := Option.isSome_iff_exists.mp
      (List.head?_isSome.mpr hne)
    have hOld' : (measurementsLast7Days now ms).getLast? =
        some ((measurementsLast7Days now ms).getLast hne) :=
      List.getLast?_eq_getLast_of_ne_nil hne
    refine ⟨mNew, (measurementsLast7Days now ms).getLast hne, hNew, hOld',
      ?_, head_newest_of_pairwise hwp hNew,
      getLast_oldest_of_pairwise hwp hOld'⟩
    unfold trend
    rw [if_pos h2, hNew, hOld']
    rfl
  · unfold trend measurementsLast7Days
    norm_num [List.filter]

/-- Witness for C3: the two-measurement scenario, which is newest-first
sorted, gives a defined trend of −2. -/
theorem trend_spec_witness :
    trend 0 [Measurement.mk 80 0, Measurement.mk 82 (-6)] = some (-2) := by
  have hsorted :
      ([Measurement.mk 80 0, Measurement.mk 82 (-6)]).Pairwise
        (fun a b => b.created_at ≤ a.created_at) := by
    norm_num [List.pairwise_cons]
  exact (trend_spec 0 [Measurement.mk 80 0, Measurement.mk 82 (-6)]
    hsorted).2.2

/-- C4. For every measurement list and current time, the rolling
average is `none` exactly when no measurement lies in the trailing 7-day
window, equals the unweighted arithmetic mean of exactly the in-window
measurements otherwise, and inserting an additional measurement with
timestamp strictly before now − 7 days anywhere into the list never
changes it. -/
theorem rollingAvg_spec (now : ℚ) (l1 l2 : List Measurement)
    (m : Measurement) (hm : m.created_at < now - 7) :
    (rollingAvg now (l1 ++ l2) = none ↔
      measurementsLast7Days now (l1 ++ l2) = []) ∧
    (measurementsLast7Days now (l1 ++ l2) ≠ [] →
      rollingAvg now (l1 ++ l2) =
        some (((measurementsLast7Days now (l1 ++ l2)).map
                (fun x => x.weight_kg)).sum /
              (measurementsLast7Days now (l1 ++ l2)).length)) ∧
    rollingAvg now (l1 ++ m :: l2) = rollingAvg now (l1 ++ l2) := by
  refine ⟨?_, ?_, ?_⟩
  · unfold rollingAvg
    constructor
    · intro hn
      by_cases hpos : 0 < (measurementsLast7Days now (l1 ++ l2)).length
      · rw [if_pos hpos] at hn
        exact absurd hn (by simp)
      · exact List.length_eq_zero.mp (by omega)
    · intro hnil
      rw [hnil]
      simp
  · intro hne
    unfold rollingAvg
    rw [if_pos (List.length_pos.mpr hne)]
  · have hwin : measurementsLast7Days now (l1 ++ m :: l2) =
        measurementsLast7Days now (l1 ++ l2) := by
      unfold measurementsLast7Days
      rw [List.filter_append, List.filter_append, List.filter_cons]
      have : ¬ (now - 7 ≤ m.created_at) := not_le.mpr hm
      simp [this]
    unfold rollingAvg
    rw [hwin]

/-- Witness for C4: inserting a measurement 10 days old does not change
the rolling average of a single-measurement list at `now = 0`. -/
theorem rollingAvg_spec_witness :
    (Measurement.mk 90 (-10)).created_at < (0 : ℚ) - 7 ∧
    rollingAvg 0 [Measurement.mk 80 0, Measurement.mk 90 (-10)] =
      rollingAvg 0 [Measurement.mk 80 0] := by
  refine ⟨by norm_num, ?_⟩
  exact (rollingAvg_spec 0 [Measurement.mk 80 0] []
    (Measurement.mk 90 (-10)) (by norm_num)).2.2

/-! Claim C6: Y-axis tick generation (identical code in both files) -/

/-- The body of the tick loop:
`for (let kg = min; kg <= max; kg += 5) ticks.push(kg)`. -/
def tickLoop (kg maxTick : ℤ) : List ℤ :=
  if kg ≤ maxTick then kg :: tickLoop (kg + 5) maxTick else []
termination_by (maxTick + 5 - kg).toNat
decreasing_by
  simp_wf
  omega

/-- Source: `yTicks`: `min = Math.floor(yDomainMin / 5) * 5`,
`max = Math.ceil(yDomainMax / 5) * 5`, then ticks at 5 kg steps from
`min` to `max` inclusive. -/
def yTicks (yDomainMin yDomainMax : ℚ) : List ℤ :=
  tickLoop (⌊yDomainMin / 5⌋ * 5) (⌈yDomainMax / 5⌉ * 5)

/-- Consecutive ticks produced by the loop differ by exactly 5. -/
theorem tickLoop_chain (kg maxTick : ℤ) :
    (tickLoop kg maxTick).Chain' (fun a b => b = a + 5) := by
  induction kg, maxTick using tickLoop.induct with
  | case1 kg maxTick h ih =>
    rw [tickLoop, if_pos h, List.chain'_cons']
    refine ⟨?_, ih⟩
    intro b hb
    rw [tickLoop] at hb
    by_cases h5 : kg + 5 ≤ maxTick
    · rw [if_pos h5] at hb
      simp at hb
      omega
    · rw [if_neg h5] at hb
      simp at hb
  | case2 kg maxTick h =>
    rw [tickLoop, if_neg h]
    simp

/-- When the loop runs at all, its first tick is the starting value. -/
theorem tickLoop_head (kg maxTick : ℤ) (h : kg ≤ maxTick) :
    (tickLoop kg maxTick).head? = some kg := by
  rw [tickLoop, if_pos h]
  rfl

/-- When the start is below the end and their difference is a multiple of
5, the loop's last tick is exactly the end value. -/
theorem tickLoop_getLast (kg maxTick : ℤ) (h : kg ≤ maxTick)
    (hdvd : (5 : ℤ) ∣ (maxTick - kg)) :
    (tickLoop kg maxTick).getLast? = some maxTick := by
  induction kg, maxTick using tickLoop.induct with
  | case1 kg maxTick h1 ih =>
    rw [tickLoop, if_pos h1]
    by_cases h5 : kg + 5 ≤ maxTick
    · have hdvd5 : (5 : ℤ) ∣ (maxTick - (kg + 5)) := by omega
      have h6 := ih h5 hdvd5
      have h7 : maxTick ∈ (tickLoop (kg + 5) maxTick).getLast? := by
        rw [Option.mem_def, h6]
      exact Option.mem_def.mp (List.mem_getLast?_cons h7)
    · have heq : maxTick = kg := by omega
      subst heq
      rw [tickLoop, if_neg h5]
      rfl
  | case2 kg maxTick h2 => omega

/-- Every tick lies between the start and the end of the loop. -/
theorem tickLoop_mem_bounds (kg maxTick : ℤ) :
    ∀ t ∈ tickLoop kg maxTick, kg ≤ t ∧ t ≤ maxTick := by
  induction kg, maxTick using tickLoop.induct with
  | case1 kg maxTick h1 ih =>
    rw [tickLoop, if_pos h1]
    intro t ht
    rcases List.mem_cons.mp ht with h | h
    · omega
    · have := ih t h
      omega
  | case2 kg maxTick h2 =>
    rw [tickLoop, if_neg h2]
    simp

/-- C6. For every domain with `yDomainMin ≤ yDomainMax`, the tick
list runs from `floor(yDomainMin/5)*5` up to `ceil(yDomainMax/5)*5`
inclusive in steps of 5: it is non-empty, strictly monotonically
increasing with consecutive ticks differing by exactly 5, every tick lies
between those two endpoints, its first tick is ≤ `yDomainMin` and its
last tick is ≥ `yDomainMax`, so the ticks fully cover the domain. -/
theorem yTicks_spec (yDomainMin yDomainMax : ℚ)
    (hle : yDomainMin ≤ yDomainMax) :
    yTicks yDomainMin yDomainMax ≠ [] ∧
    (yTicks yDomainMin yDomainMax).head? = some (⌊yDomainMin / 5⌋ * 5) ∧
    (yTicks yDomainMin yDomainMax).getLast? =
      some (⌈yDomainMax / 5⌉ * 5) ∧
    (yTicks yDomainMin yDomainMax).Chain' (fun a b => b = a + 5) ∧
    (yTicks yDomainMin yDomainMax).Chain' (fun a b => a < b) ∧
    (∀ t ∈ yTicks yDomainMin yDomainMax,
      ⌊yDomainMin / 5⌋ * 5 ≤ t ∧ t ≤ ⌈yDomainMax / 5⌉ * 5) ∧
    ((⌊yDomainMin / 5⌋ * 5 : ℤ) : ℚ) ≤ yDomainMin ∧
    yDomainMax ≤ ((⌈yDomainMax / 5⌉ * 5 : ℤ) : ℚ) := by
  have hfloor : ((⌊yDomainMin / 5⌋ * 5 : ℤ) : ℚ) ≤ yDomainMin := by
    push_cast
    have h1 : (⌊yDomainMin / 5⌋ : ℚ) ≤ yDomainMin / 5 :=
      Int.floor_le _
    linarith
  have hceil : yDomainMax ≤ ((⌈yDomainMax / 5⌉ * 5 : ℤ) : ℚ) := by
    push_cast
    have h1 : yDomainMax / 5 ≤ (⌈yDomainMax / 5⌉ : ℚ) :=
      Int.le_ceil _
    linarith
  have hmm : (⌊yDomainMin / 5⌋ * 5 : ℤ) ≤ ⌈yDomainMax / 5⌉ * 5 := by
    have : ((⌊yDomainMin / 5⌋ * 5 : ℤ) : ℚ) ≤
        ((⌈yDomainMax / 5⌉ * 5 : ℤ) : ℚ) := by linarith
    exact_mod_cast this
  have hdvd : (5 : ℤ) ∣ (⌈yDomainMax / 5⌉ * 5 - ⌊yDomainMin / 5⌋ * 5) :=
    ⟨⌈yDomainMax / 5⌉ - ⌊yDomainMin / 5⌋, by ring⟩
  refine ⟨?_, tickLoop_head _ _ hmm, tickLoop_getLast _ _ hmm hdvd,
    tickLoop_chain _ _, ?_, tickLoop_mem_bounds _ _, hfloor, hceil⟩
  · intro hnil
    have := tickLoop_head _ _ hmm
    rw [show yTicks yDomainMin yDomainMax =
        tickLoop (⌊yDomainMin / 5⌋ * 5) (⌈yDomainMax / 5⌉ * 5) from rfl]
      at hnil
    rw [hnil] at this
    simp at this
  · exact (tickLoop_chain _ _).imp (fun h => by omega)

/-- Witness for C6 at the domain `[78, 103]`: the first tick is 75 and
the last is 105. -/
theorem yTicks_spec_witness :
    (78 : ℚ) ≤ 103 ∧
    (yTicks 78 103).head? = some (⌊(78 : ℚ) / 5⌋ * 5) ∧
    (yTicks 78 103).getLast? = some (⌈(103 : ℚ) / 5⌉ * 5) := by
  have h := yTicks_spec 78 103 (by norm_num)
  exact ⟨by norm_num, h.2.1, h.2.2.1⟩

/-! Chart series and Y-axis domain (claims C5 and C7)

The two dashboard files differ here: `register/page.tsx` caps the series
at 25 points when a goal reference line is shown and also overlays a
short-term goal, while `dashboard-client.tsx` always caps at 50 and has
no short-term goal.  Each version is embedded in its own namespace. -/

/-- One point of the rendered chart series:
`{ date: format(...), weight: m.weight_kg, fullDate: m.created_at }`
(the numeric `id` field is dropped as purely presentational). -/
structure ChartPoint where
  date : String
  weight : ℚ
  fullDate : ℚ
deriving Repr, DecidableEq

/-- Source: `Math.min(...)` over a possibly-absent candidate: an absent candidate
stands for the `Infinity` entry of the source array, the neutral element
of `Math.min`. -/
def minO (a : ℚ) (o : Option ℚ) : ℚ :=
  match o with
  | none => a
  | some v => min a v

/-- Source: `showBMIZones ? bmiZones.underweight - 5 : Infinity` — the optional
lower-bound candidate from the BMI zone band. -/
def zoneMinCand (visible : Bool) (zoneUnderweight : ℚ) : Option ℚ :=
  if visible then some (zoneUnderweight - 5) else none

/-- Source: `showGoalLine && targetWeightKg != null ? targetWeightKg - 5 :
Infinity` — the optional lower-bound candidate from the long-term goal
line. -/
def goalMinCand (visible : Bool) (target : Option ℚ) : Option ℚ :=
  match visible, target with
  | true, some tw => some (tw - 5)
  | _, _ => none

/-- Source: `showShortTermGoalLine && upcomingShortTermGoal ?
upcomingShortTermGoal.target_weight_kg - 5 : Infinity` — the optional
lower-bound candidate from the short-term goal line. -/
def shortMinCand (visible : Bool) (goal : Option Goal) : Option ℚ :=
  match visible, goal with
  | true, some g => some (g.target_weight_kg - 5)
  | _, _ => none

/-- Source: `showGoalLine && targetWeightKg != null ? targetWeightKg + 5 : 0` —
the upper-bound entry from the long-term goal line (`0` when absent, as
in the source array). -/
def goalMaxCand (visible : Bool) (target : Option ℚ) : ℚ :=
  match visible, target with
  | true, some tw => tw + 5
  | _, _ => 0

/-- Source: `showShortTermGoalLine && upcomingShortTermGoal ?
upcomingShortTermGoal.target_weight_kg + 5 : 0` — the upper-bound entry
from the short-term goal line. -/
def shortMaxCand (visible : Bool) (goal : Option Goal) : ℚ :=
  match visible, goal with
  | true, some g => g.target_weight_kg + 5
  | _, _ => 0

/-- Source: `weightMin`: `chartData.length ? Math.min(...weights) : 0`. -/
def weightMin (chartData : List ChartPoint) : ℚ :=
  match chartData.map (fun d => d.weight) with
  | [] => 0
  | w :: ws => ws.foldl min w

/-- Source: `weightMax`: `chartData.length ? Math.max(...weights) : 100`. -/
def weightMax (chartData : List ChartPoint) : ℚ :=
  match chartData.map (fun d => d.weight) with
  | [] => 100
  | w :: ws => ws.foldl max w

namespace Dashboard

/-- The chart-related toggle state of `dashboard-client.tsx`. -/
structure Toggles where
  showBMIZones : Bool
  showGoalLine : Bool
  showFullHistory : Bool
deriving Repr, DecidableEq

/-- Source: `showFullHistory ? measurements : measurements.slice(0, 50)`. -/
def chartMeasurements (t : Toggles) (measurements : List Measurement) :
    List Measurement :=
  if t.showFullHistory then measurements else measurements.take 50

/-- Source: `[...chartMeasurements].reverse().map((m) => ({...}))`. -/
def chartData (fmt : ℚ → String) (t : Toggles)
    (measurements : List Measurement) : List ChartPoint :=
  (chartMeasurements t measurements).reverse.map
    (fun m =>
      { date := fmt m.created_at, weight := m.weight_kg,
        fullDate := m.created_at })

/-- Source: `effectiveMin` of `dashboard-client.tsx`: reduce of `Math.min` over
`weightMin - 2`, the underweight zone boundary − 5 when zones are shown,
and the long-term target − 5 when the goal line is shown and a target
exists. -/
def effectiveMin (t : Toggles) (profile : Profile) (wMin : ℚ) : ℚ :=
  minO
    (minO (wMin - 2)
      (zoneMinCand t.showBMIZones
        (getBMIZoneBoundaries (heightCm profile)).underweight))
    (goalMinCand t.showGoalLine profile.target_weight_kg)

/-- Source: `effectiveMax` of `dashboard-client.tsx`: reduce of `Math.max` over
`weightMax + 5` and the long-term target + 5 when the goal line is shown
and a target exists (`0` otherwise, as in the source array). -/
def effectiveMax (t : Toggles) (profile : Profile) (wMax : ℚ) : ℚ :=
  max (wMax + 5) (goalMaxCand t.showGoalLine profile.target_weight_kg)

end Dashboard

namespace Register

/-- The chart-related toggle state of `register/page.tsx`. -/
structure Toggles where
  showBMIZones : Bool
  showGoalLine : Bool
  showShortTermGoalLine : Bool
  showFullHistory : Bool
deriving Repr, DecidableEq

/-- Source: `upcomingShortTermGoal`: the not-achieved goal with the earliest
deadline not in the past, `null` when there is none. -/
def upcomingShortTermGoal (now : ℤ) (goals : List Goal) : Option Goal :=
  ((goals.filter (fun g =>
      decide (g.status ≠ GoalStatus.achieved) && decide (now ≤ g.deadline))).mergeSort
    (fun a b => decide (a.deadline ≤ b.deadline))).head?

/-- Source: `chartLimit`: full length when showing full history, else 25 when a
goal reference line is toggled on, else 50. -/
def chartLimit (t : Toggles) (measurements : List Measurement) : ℕ :=
  if t.showFullHistory then measurements.length
  else if t.showGoalLine || t.showShortTermGoalLine then 25 else 50

/-- Source: `showFullHistory ? measurements : measurements.slice(0, chartLimit)`. -/
def chartMeasurements (t : Toggles) (measurements : List Measurement) :
    List Measurement :=
  if t.showFullHistory then measurements
  else measurements.take (chartLimit t measurements)

/-- Source: `[...chartMeasurements].reverse().map((m) => ({...}))`. -/
def chartData (fmt : ℚ → String) (t : Toggles)
    (measurements : List Measurement) : List ChartPoint :=
  (chartMeasurements t measurements).reverse.map
    (fun m =>
      { date := fmt m.created_at, weight := m.weight_kg,
        fullDate := m.created_at })

/-- Source: `effectiveMin` of `register/page.tsx`: reduce of `Math.min` over
`weightMin - 2`, the underweight zone boundary − 5 when zones are shown,
the long-term target − 5 when that goal line is shown and a target
exists, and the upcoming short-term goal target − 5 when that line is
shown and such a goal exists. -/
def effectiveMin (t : Toggles) (profile : Profile)
    (shortGoal : Option Goal) (wMin : ℚ) : ℚ :=
  minO
    (minO
      (minO (wMin - 2)
        (zoneMinCand t.showBMIZones
          (getBMIZoneBoundaries (heightCm profile)).underweight))
      (goalMinCand t.showGoalLine profile.target_weight_kg))
    (shortMinCand t.showShortTermGoalLine shortGoal)

/-- Source: `effectiveMax` of `register/page.tsx`: reduce of `Math.max` over
`weightMax + 5`, the long-term target + 5 when that goal line is shown
and a target exists, and the short-term goal target + 5 when that line is
shown and such a goal exists (`0` for absent entries, as in the source
array). -/
def effectiveMax (t : Toggles) (profile : Profile)
    (shortGoal : Option Goal) (wMax : ℚ) : ℚ :=
  max
    (max (wMax + 5)
      (goalMaxCand t.showGoalLine profile.target_weight_kg))
    (shortMaxCand t.showShortTermGoalLine shortGoal)

end Register

/-! Helper lemmas: spread `Math.min` / `Math.max` as left folds, and
`minO` (minimum with an optional candidate). -/

/-- A `Math.min` fold is bounded by its initial value. -/
theorem foldl_min_le_init (l : List ℚ) (a : ℚ) : l.foldl min a ≤ a := by
  induction l generalizing a with
  | nil => simp
  | cons x xs ih =>
    exact le_trans (ih (min a x)) (min_le_left a x)

/-- A `Math.min` fold is bounded by every list element. -/
theorem foldl_min_le_mem (l : List ℚ) (a : ℚ) :
    ∀ x ∈ l, l.foldl min a ≤ x := by
  induction l generalizing a with
  | nil => simp
  | cons y ys ih =>
    intro x hx
    rcases List.mem_cons.mp hx with h | h
    · subst h
      exact le_trans (foldl_min_le_init ys (min a x)) (min_le_right a x)
    · exact ih (min a y) x h

/-- A `Math.min` fold returns its initial value or a list element. -/
theorem foldl_min_choice (l : List ℚ) (a : ℚ) :
    l.foldl min a = a ∨ l.foldl min a ∈ l := by
  induction l generalizing a with
  | nil => exact Or.inl rfl
  | cons y ys ih =>
    rcases ih (min a y) with h | h
    · rcases min_choice a y with hm | hm
      · exact Or.inl (by rw [List.foldl_cons, h, hm])
      · exact Or.inr (by rw [List.foldl_cons, h, hm]; exact List.mem_cons_self _ _)
    · exact Or.inr (List.mem_cons_of_mem y h)

/-- A `Math.max` fold is at least its initial value. -/
theorem le_foldl_max_init (l : List ℚ) (a : ℚ) : a ≤ l.foldl max a := by
  induction l generalizing a with
  | nil => simp
  | cons x xs ih =>
    exact le_trans (le_max_left a x) (ih (max a x))

/-- A `Math.max` fold is at least every list element. -/
theorem le_foldl_max_mem (l : List ℚ) (a : ℚ) :
    ∀ x ∈ l, x ≤ l.foldl max a := by
  induction l generalizing a with
  | nil => simp
  | cons y ys ih =>
    intro x hx
    rcases List.mem_cons.mp hx with h | h
    · subst h
      exact le_trans (le_max_right a x) (le_foldl_max_init ys (max a x))
    · exact ih (max a y) x h

/-- A `Math.max` fold returns its initial value or a list element. -/
theorem foldl_max_choice (l : List ℚ) (a : ℚ) :
    l.foldl max a = a ∨ l.foldl max a ∈ l := by
  induction l generalizing a with
  | nil => exact Or.inl rfl
  | cons y ys ih =>
    rcases ih (max a y) with h | h
    · rcases max_choice a y with hm | hm
      · exact Or.inl (by rw [List.foldl_cons, h, hm])
      · exact Or.inr (by rw [List.foldl_cons, h, hm]; exact List.mem_cons_self _ _)
    · exact Or.inr (List.mem_cons_of_mem y h)

/-- Source: `minO` never exceeds its sure candidate. -/
theorem minO_le_left (a : ℚ) (o : Option ℚ) : minO a o ≤ a := by
  cases o with
  | none => exact le_refl a
  | some v => exact min_le_left a v

/-- Source: `minO` never exceeds a present optional candidate. -/
theorem minO_le_some (a v : ℚ) : minO a (some v) ≤ v :=
  min_le_right a v

/-- Source: `minO` returns its sure candidate or a present optional candidate. -/
theorem minO_choice (a : ℚ) (o : Option ℚ) :
    minO a o = a ∨ ∃ v, o = some v ∧ minO a o = v := by
  cases o with
  | none => exact Or.inl rfl
  | some v =>
    rcases min_choice a v with h | h
    · exact Or.inl h
    · exact Or.inr ⟨v, rfl, h⟩

/-- Source: `weightMin` is a lower bound on the weights in view. -/
theorem weightMin_le (cd : List ChartPoint) :
    ∀ p ∈ cd, weightMin cd ≤ p.weight := by
  cases cd with
  | nil => simp
  | cons c cs =>
    intro p hp
    rcases List.mem_cons.mp hp with h | h
    · subst h
      exact foldl_min_le_init _ _
    · exact foldl_min_le_mem (cs.map (fun d => d.weight)) c.weight p.weight
        (List.mem_map_of_mem _ h)

/-- Source: `weightMin` of a non-empty view is one of the weights in view. -/
theorem weightMin_mem (cd : List ChartPoint) (h : cd ≠ []) :
    ∃ p ∈ cd, weightMin cd = p.weight := by
  cases cd with
  | nil => exact absurd rfl h
  | cons c cs =>
    rcases foldl_min_choice (cs.map (fun d => d.weight)) c.weight with
      hc | hc
    · exact ⟨c, List.mem_cons_self _ _, hc⟩
    · rcases List.mem_map.mp hc with ⟨p, hp, hpw⟩
      exact ⟨p, List.mem_cons_of_mem c hp, hpw.symm⟩

/-- Source: `weightMax` is an upper bound on the weights in view. -/
theorem le_weightMax (cd : List ChartPoint) :
    ∀ p ∈ cd, p.weight ≤ weightMax cd := by
  cases cd with
  | nil => simp
  | cons c cs =>
    intro p hp
    rcases List.mem_cons.mp hp with h | h
    · subst h
      exact le_foldl_max_init _ _
    · exact le_foldl_max_mem (cs.map (fun d => d.weight)) c.weight p.weight
        (List.mem_map_of_mem _ h)

/-- Source: `weightMax` of a non-empty view is one of the weights in view. -/
theorem weightMax_mem (cd : List ChartPoint) (h : cd ≠ []) :
    ∃ p ∈ cd, weightMax cd = p.weight := by
  cases cd with
  | nil => exact absurd rfl h
  | cons c cs =>
    rcases foldl_max_choice (cs.map (fun d => d.weight)) c.weight with
      hc | hc
    · exact ⟨c, List.mem_cons_self _ _, hc⟩
    · rcases List.mem_map.mp hc with ⟨p, hp, hpw⟩
      exact ⟨p, List.mem_cons_of_mem c hp, hpw.symm⟩

/-- Inversion for `zoneMinCand`. -/
theorem zoneMinCand_eq_some {b : Bool} {z v : ℚ}
    (h : zoneMinCand b z = some v) : b = true ∧ v = z - 5 := by
  cases b <;> simp_all [zoneMinCand]

/-- Inversion for `goalMinCand`. -/
theorem goalMinCand_eq_some {b : Bool} {target : Option ℚ} {v : ℚ}
    (h : goalMinCand b target = some v) :
    b = true ∧ ∃ tw, target = some tw ∧ v = tw - 5 := by
  cases b <;> cases target <;> simp_all [goalMinCand]

/-- Inversion for `shortMinCand`. -/
theorem shortMinCand_eq_some {b : Bool} {goal : Option Goal} {v : ℚ}
    (h : shortMinCand b goal = some v) :
    b = true ∧ ∃ g, goal = some g ∧ v = g.target_weight_kg - 5 := by
  cases b <;> cases goal <;> simp_all [shortMinCand]

/-- Source: `goalMaxCand` is `tw + 5` or the placeholder `0`. -/
theorem goalMaxCand_cases (b : Bool) (target : Option ℚ) :
    (b = true ∧ ∃ tw, target = some tw ∧
      goalMaxCand b target = tw + 5) ∨
    goalMaxCand b target = 0 := by
  cases b <;> cases target <;> simp [goalMaxCand]

/-- Source: `shortMaxCand` is `g.target_weight_kg + 5` or the placeholder `0`. -/
theorem shortMaxCand_cases (b : Bool) (goal : Option Goal) :
    (b = true ∧ ∃ g, goal = some g ∧
      shortMaxCand b goal = g.target_weight_kg + 5) ∨
    shortMaxCand b goal = 0 := by
  cases b <;> cases goal <;> simp [shortMaxCand]

/-! Claim C5: Y-axis domain -/

/-- C5. For every non-empty chart series with positive weights,
profile, optional short-term goal and toggle state, in both chart
implementations: the lower bound is the minimum of `min(weights) − 2` and
`threshold − 5` for each visible reference line/band (it is ≤ each such
candidate and equal to one of them), the upper bound is the maximum of
`max(weights) + 5` and `threshold + 5` for each visible goal line (it is
≥ each such candidate and equal to one of them), and BMI zone visibility
never changes the upper bound. -/
theorem yDomain_spec (t : Register.Toggles) (td : Dashboard.Toggles)
    (profile : Profile) (shortGoal : Option Goal) (cd : List ChartPoint)
    (hne : cd ≠ []) (hpos : ∀ p ∈ cd, 0 < p.weight) :
    (∀ p ∈ cd, weightMin cd ≤ p.weight) ∧
    (∃ p ∈ cd, weightMin cd = p.weight) ∧
    (∀ p ∈ cd, p.weight ≤ weightMax cd) ∧
    (∃ p ∈ cd, weightMax cd = p.weight) ∧
    Register.effectiveMin t profile shortGoal (weightMin cd) ≤
      weightMin cd - 2 ∧
    (t.showBMIZones = true →
      Register.effectiveMin t profile shortGoal (weightMin cd) ≤
        (getBMIZoneBoundaries (heightCm profile)).underweight - 5) ∧
    (∀ tw, t.showGoalLine = true → profile.target_weight_kg = some tw →
      Register.effectiveMin t profile shortGoal (weightMin cd) ≤
        tw - 5) ∧
    (∀ g, t.showShortTermGoalLine = true → shortGoal = some g →
      Register.effectiveMin t profile shortGoal (weightMin cd) ≤
        g.target_weight_kg - 5) ∧
    (Register.effectiveMin t profile shortGoal (weightMin cd) =
        weightMin cd - 2 ∨
      (t.showBMIZones = true ∧
        Register.effectiveMin t profile shortGoal (weightMin cd) =
          (getBMIZoneBoundaries (heightCm profile)).underweight - 5) ∨
      (∃ tw, t.showGoalLine = true ∧
        profile.target_weight_kg = some tw ∧
        Register.effectiveMin t profile shortGoal (weightMin cd) =
          tw - 5) ∨
      (∃ g, t.showShortTermGoalLine = true ∧ shortGoal = some g ∧
        Register.effectiveMin t profile shortGoal (weightMin cd) =
          g.target_weight_kg - 5)) ∧
    weightMax cd + 5 ≤
      Register.effectiveMax t profile shortGoal (weightMax cd) ∧
    (∀ tw, t.showGoalLine = true → profile.target_weight_kg = some tw →
      tw + 5 ≤ Register.effectiveMax t profile shortGoal (weightMax cd)) ∧
    (∀ g, t.showShortTermGoalLine = true → shortGoal = some g →
      g.target_weight_kg + 5 ≤
        Register.effectiveMax t profile shortGoal (weightMax cd)) ∧
    (Register.effectiveMax t profile shortGoal (weightMax cd) =
        weightMax cd + 5 ∨
      (∃ tw, t.showGoalLine = true ∧
        profile.target_weight_kg = some tw ∧
        Register.effectiveMax t profile shortGoal (weightMax cd) =
          tw + 5) ∨
      (∃ g, t.showShortTermGoalLine = true ∧ shortGoal = some g ∧
        Register.effectiveMax t profile shortGoal (weightMax cd) =
          g.target_weight_kg + 5)) ∧
    (∀ b : Bool,
      Register.effectiveMax
        (Register.Toggles.mk b t.showGoalLine t.showShortTermGoalLine
          t.showFullHistory) profile shortGoal (weightMax cd) =
      Register.effectiveMax t profile shortGoal (weightMax cd)) ∧
    Dashboard.effectiveMin td profile (weightMin cd) ≤
      weightMin cd - 2 ∧
    (td.showBMIZones = true →
      Dashboard.effectiveMin td profile (weightMin cd) ≤
        (getBMIZoneBoundaries (heightCm profile)).underweight - 5) ∧
    (∀ tw, td.showGoalLine = true → profile.target_weight_kg = some tw →
      Dashboard.effectiveMin td profile (weightMin cd) ≤ tw - 5) ∧
    (Dashboard.effectiveMin td profile (weightMin cd) =
        weightMin cd - 2 ∨
      (td.showBMIZones = true ∧
        Dashboard.effectiveMin td profile (weightMin cd) =
          (getBMIZoneBoundaries (heightCm profile)).underweight - 5) ∨
      (∃ tw, td.showGoalLine = true ∧
        profile.target_weight_kg = some tw ∧
        Dashboard.effectiveMin td profile (weightMin cd) = tw - 5)) ∧
    weightMax cd + 5 ≤ Dashboard.effectiveMax td profile (weightMax cd) ∧
    (∀ tw, td.showGoalLine = true → profile.target_weight_kg = some tw →
      tw + 5 ≤ Dashboard.effectiveMax td profile (weightMax cd)) ∧
    (Dashboard.effectiveMax td profile (weightMax cd) =
        weightMax cd + 5 ∨
      (∃ tw, td.showGoalLine = true ∧
        profile.target_weight_kg = some tw ∧
        Dashboard.effectiveMax td profile (weightMax cd) = tw + 5)) ∧
    (∀ b : Bool,
      Dashboard.effectiveMax
        (Dashboard.Toggles.mk b td.showGoalLine td.showFullHistory)
        profile (weightMax cd) =
      Dashboard.effectiveMax td profile (weightMax cd)) := by
  have hwmaxpos : 0 < weightMax cd := by
    obtain ⟨p, hp, hpw⟩ := weightMax_mem cd hne
    rw [hpw]
    exact hpos p hp
  refine ⟨weightMin_le cd, weightMin_mem cd hne, le_weightMax cd,
    weightMax_mem cd hne, ?_, ?_, ?_, ?_, ?_, ?_, ?_, ?_, ?_, ?_, ?_,
    ?_, ?_, ?_, ?_, ?_, ?_, ?_⟩
  · exact le_trans (minO_le_left _ _)
      (le_trans (minO_le_left _ _) (minO_le_left _ _))
  · intro hb
    unfold Register.effectiveMin
    rw [hb]
    unfold zoneMinCand
    rw [if_pos rfl]
    exact le_trans (minO_le_left _ _)
      (le_trans (minO_le_left _ _) (minO_le_some _ _))
  · intro tw hg htw
    unfold Register.effectiveMin
    rw [hg, htw]
    exact le_trans (minO_le_left _ _) (minO_le_some _ _)
  · intro g hs hsg
    unfold Register.effectiveMin
    rw [hs, hsg]
    exact minO_le_some _ _
  · rcases minO_choice
        (minO
          (minO (weightMin cd - 2)
            (zoneMinCand t.showBMIZones
              (getBMIZoneBoundaries (heightCm profile)).underweight))
          (goalMinCand t.showGoalLine profile.target_weight_kg))
        (shortMinCand t.showShortTermGoalLine shortGoal) with h1 | h1
    · rcases minO_choice
          (minO (weightMin cd - 2)
            (zoneMinCand t.showBMIZones
              (getBMIZoneBoundaries (heightCm profile)).underweight))
          (goalMinCand t.showGoalLine profile.target_weight_kg) with
        h2 | h2
      · rcases minO_choice (weightMin cd - 2)
            (zoneMinCand t.showBMIZones
              (getBMIZoneBoundaries (heightCm profile)).underweight) with
          h3 | h3
        · exact Or.inl (by rw [Register.effectiveMin, h1, h2, h3])
        · obtain ⟨v, hv, h3'⟩ := h3
          obtain ⟨hb, hv5⟩ := zoneMinCand_eq_some hv
          refine Or.inr (Or.inl ⟨hb, ?_⟩)
          rw [Register.effectiveMin, h1, h2, h3', hv5]
      · obtain ⟨v, hv, h2'⟩ := h2
        obtain ⟨hb, tw, htw, hv5⟩ := goalMinCand_eq_some hv
        refine Or.inr (Or.inr (Or.inl ⟨tw, hb, htw, ?_⟩))
        rw [Register.effectiveMin, h1, h2', hv5]
    · obtain ⟨v, hv, h1'⟩ := h1
      obtain ⟨hb, g, hg, hv5⟩ := shortMinCand_eq_some hv
      refine Or.inr (Or.inr (Or.inr ⟨g, hb, hg, ?_⟩))
      rw [Register.effectiveMin, h1', hv5]
  · exact le_trans (le_max_left _ _) (le_max_left _ _)
  · intro tw hg htw
    unfold Register.effectiveMax
    rw [hg, htw]
    exact le_trans (le_max_right _ _) (le_max_left _ _)
  · intro g hs hsg
    unfold Register.effectiveMax
    rw [hs, hsg]
    exact le_max_right _ _
  · have hge : weightMax cd + 5 ≤
        Register.effectiveMax t profile shortGoal (weightMax cd) :=
      le_trans (le_max_left _ _) (le_max_left _ _)
    rcases max_choice
        (max (weightMax cd + 5)
          (goalMaxCand t.showGoalLine profile.target_weight_kg))
        (shortMaxCand t.showShortTermGoalLine shortGoal) with h1 | h1
    · rcases max_choice (weightMax cd + 5)
          (goalMaxCand t.showGoalLine profile.target_weight_kg) with
        h2 | h2
      · exact Or.inl (by rw [Register.effectiveMax, h1, h2])
      · rcases goalMaxCand_cases t.showGoalLine profile.target_weight_kg
          with ⟨hb, tw, htw, hc⟩ | hc
        · refine Or.inr (Or.inl ⟨tw, hb, htw, ?_⟩)
          rw [Register.effectiveMax, h1, h2, hc]
        · exfalso
          have : Register.effectiveMax t profile shortGoal
              (weightMax cd) = 0 := by
            rw [Register.effectiveMax, h1, h2, hc]
          rw [this] at hge
          linarith
    · rcases shortMaxCand_cases t.showShortTermGoalLine shortGoal with
        ⟨hb, g, hg, hc⟩ | hc
      · refine Or.inr (Or.inr ⟨g, hb, hg, ?_⟩)
        rw [Register.effectiveMax, h1, hc]
      · exfalso
        have : Register.effectiveMax t profile shortGoal
            (weightMax cd) = 0 := by
          rw [Register.effectiveMax, h1, hc]
        rw [this] at hge
        linarith
  · intro b
    rfl
  · exact le_trans (minO_le_left _ _) (minO_le_left _ _)
  · intro hb
    unfold Dashboard.effectiveMin
    rw [hb]
    unfold zoneMinCand
    rw [if_pos rfl]
    exact le_trans (minO_le_left _ _) (minO_le_some _ _)
  · intro tw hg htw
    unfold Dashboard.effectiveMin
    rw [hg, htw]
    exact minO_le_some _ _
  · rcases minO_choice
        (minO (weightMin cd - 2)
          (zoneMinCand td.showBMIZones
            (getBMIZoneBoundaries (heightCm profile)).underweight))
        (goalMinCand td.showGoalLine profile.target_weight_kg) with
      h1 | h1
    · rcases minO_choice (weightMin cd - 2)
          (zoneMinCand td.showBMIZones
            (getBMIZoneBoundaries (heightCm profile)).underweight) with
        h2 | h2
      · exact Or.inl (by rw [Dashboard.effectiveMin, h1, h2])
      · obtain ⟨v, hv, h2'⟩ := h2
        obtain ⟨hb, hv5⟩ := zoneMinCand_eq_some hv
        refine Or.inr (Or.inl ⟨hb, ?_⟩)
        rw [Dashboard.effectiveMin, h1, h2', hv5]
    · obtain ⟨v, hv, h1'⟩ := h1
      obtain ⟨hb, tw, htw, hv5⟩ := goalMinCand_eq_some hv
      refine Or.inr (Or.inr ⟨tw, hb, htw, ?_⟩)
      rw [Dashboard.effectiveMin, h1', hv5]
  · exact le_max_left _ _
  · intro tw hg htw
    unfold Dashboard.effectiveMax
    rw [hg, htw]
    exact le_max_right _ _
  · have hge : weightMax cd + 5 ≤
        Dashboard.effectiveMax td profile (weightMax cd) :=
      le_max_left _ _
    rcases max_choice (weightMax cd + 5)
        (goalMaxCand td.showGoalLine profile.target_weight_kg) with
      h1 | h1
    · exact Or.inl (by rw [Dashboard.effectiveMax, h1])
    · rcases goalMaxCand_cases td.showGoalLine profile.target_weight_kg
        with ⟨hb, tw, htw, hc⟩ | hc
      · refine Or.inr ⟨tw, hb, htw, ?_⟩
        rw [Dashboard.effectiveMax, h1, hc]
      · exfalso
        have : Dashboard.effectiveMax td profile (weightMax cd) = 0 := by
          rw [Dashboard.effectiveMax, h1, hc]
        rw [this] at hge
        linarith
  · intro b
    rfl

/-- Witness for C5: a one-point series at 80 kg with all toggles off. -/
theorem yDomain_spec_witness :
    Register.effectiveMin (Register.Toggles.mk false false false false)
      (Profile.mk (some 170) none) none
      (weightMin [ChartPoint.mk "Jan 1" 80 0]) ≤
      weightMin [ChartPoint.mk "Jan 1" 80 0] - 2 ∧
    weightMax [ChartPoint.mk "Jan 1" 80 0] + 5 ≤
      Register.effectiveMax (Register.Toggles.mk false false false false)
        (Profile.mk (some 170) none) none
        (weightMax [ChartPoint.mk "Jan 1" 80 0]) := by
  have h := yDomain_spec (Register.Toggles.mk false false false false)
    (Dashboard.Toggles.mk false false false)
    (Profile.mk (some 170) none) none [ChartPoint.mk "Jan 1" 80 0]
    (by simp)
    (by
      intro p hp
      simp at hp
      subst hp
      norm_num)
  exact ⟨h.2.2.2.2.1, h.2.2.2.2.2.2.2.2.2.1⟩

/-! Claim C7: chart series selection

The two implementations differ: `register/page.tsx` reduces the cap to
25 when a goal reference line is on, while `dashboard-client.tsx` always
uses 50 regardless of its goal-line toggle. -/

/-- Counterexample to C7 as stated: in `dashboard-client.tsx`, with the
goal line toggled on, full history off, and 26 measurements, the chart
series still holds 26 points, not the claimed "most recent 25". -/
theorem chart_selection_counterexample :
    (Dashboard.chartMeasurements (Dashboard.Toggles.mk false true false)
      (List.replicate 26 (Measurement.mk 80 0))).length = 26 ∧
    ¬ (Dashboard.chartMeasurements (Dashboard.Toggles.mk false true false)
      (List.replicate 26 (Measurement.mk 80 0))).length = 25 := by
  have hl : (Dashboard.chartMeasurements
      (Dashboard.Toggles.mk false true false)
      (List.replicate 26 (Measurement.mk 80 0))).length = 26 := by
    have hms : Dashboard.chartMeasurements
        (Dashboard.Toggles.mk false true false)
        (List.replicate 26 (Measurement.mk 80 0)) =
        (List.replicate 26 (Measurement.mk 80 0)).take 50 := rfl
    rw [hms, List.length_take, List.length_replicate]
    norm_num
  exact ⟨hl, by rw [hl]; norm_num⟩

/-- C7 (amended). For every measurement list (newest-first) and
toggle state: in `register/page.tsx` the series is the most recent 50
measurements when full history is off, reduced to the most recent 25 when
either goal reference line is on, and the whole list when the
full-history toggle is on; in `dashboard-client.tsx` the cap is always 50
when full history is off, regardless of the goal-line toggle.  In both
versions the selected measurements are rendered reversed
(oldest-to-newest), each point carrying a display date string, the raw
weight, and the original timestamp. -/
theorem chart_selection_amended (fmt : ℚ → String)
    (ms : List Measurement) (td : Dashboard.Toggles)
    (tr : Register.Toggles) :
    (td.showFullHistory = false →
      Dashboard.chartMeasurements td ms = ms.take 50) ∧
    (td.showFullHistory = true →
      Dashboard.chartMeasurements td ms = ms) ∧
    Dashboard.chartData fmt td ms =
      (Dashboard.chartMeasurements td ms).reverse.map
        (fun m =>
          ChartPoint.mk (fmt m.created_at) m.weight_kg m.created_at) ∧
    (tr.showFullHistory = false →
      (tr.showGoalLine || tr.showShortTermGoalLine) = true →
      Register.chartMeasurements tr ms = ms.take 25) ∧
    (tr.showFullHistory = false →
      (tr.showGoalLine || tr.showShortTermGoalLine) = false →
      Register.chartMeasurements tr ms = ms.take 50) ∧
    (tr.showFullHistory = true →
      Register.chartMeasurements tr ms = ms) ∧
    Register.chartData fmt tr ms =
      (Register.chartMeasurements tr ms).reverse.map
        (fun m =>
          ChartPoint.mk (fmt m.created_at) m.weight_kg m.created_at) := by
  refine ⟨?_, ?_, rfl, ?_, ?_, ?_, rfl⟩
  · intro h
    simp [Dashboard.chartMeasurements, h]
  · intro h
    simp [Dashboard.chartMeasurements, h]
  · intro hf hg
    simp [Register.chartMeasurements, Register.chartLimit, hf, hg]
  · intro hf hg
    simp [Register.chartMeasurements, Register.chartLimit, hf, hg]
  · intro h
    simp [Register.chartMeasurements, h]

/-- Witness for the amended C7: with the goal line on and full history
off, the register page takes 25 of 26 measurements while the dashboard
takes all 26 (capped at 50). -/
theorem chart_selection_amended_witness :
    Register.chartMeasurements (Register.Toggles.mk false true false false)
      (List.replicate 26 (Measurement.mk 80 0)) =
      (List.replicate 26 (Measurement.mk 80 0)).take 25 ∧
    Dashboard.chartMeasurements (Dashboard.Toggles.mk false true false)
      (List.replicate 26 (Measurement.mk 80 0)) =
      (List.replicate 26 (Measurement.mk 80 0)).take 50 := by
  have h := chart_selection_amended (fun x => "Jan 1")
    (List.replicate 26 (Measurement.mk 80 0))
    (Dashboard.Toggles.mk false true false)
    (Register.Toggles.mk false true false false)
  exact ⟨h.2.2.2.1 rfl rfl, h.1 rfl⟩
